import Mathlib

/-!
Shallow embedding of the node hooks of the react-page editor
(src/packages/editor/src/core/components/hooks/node.ts) and of the
AutoformControls component, together with the helpers they use.

JavaScript values are modelled as follows: `undefined`/`null` become
`Option.none`, objects become structures or association lists
(`DataRecord`), and a JavaScript expression that can throw a `TypeError`
is given type `Except String _`.
-/

set_option autoImplicit false

namespace ReactPage

/-- A JSON-like value, standing in for the data payloads a selector can
return and cells can store. -/
inductive Value where
  | atom (s : String)
  | list (items : List Value)
deriving Repr

mutual

/-- Modelled from the spec: `deepEquals` (src/core/utils/deepEquals is not
under src/) is structural deep equality of values. -/
def deepEquals : Value → Value → Bool
  | Value.atom a, Value.atom b => a == b
  | Value.list xs, Value.list ys => deepEqualsList xs ys
  | _, _ => false

/-- Deep equality on lists of values, elementwise. -/
def deepEqualsList : List Value → List Value → Bool
  | [], [] => true
  | x :: xs, y :: ys => deepEquals x y && deepEqualsList xs ys
  | _, _ => false

end

/-- A JavaScript object holding cell data: an ordered association list of
field names to values (a real JS object never has a duplicate key). -/
abbrev DataRecord : Type := List (String × Value)

/-- Property read `d[k]`: the value of the first entry with key `k`. -/
def getField : DataRecord → String → Option Value
  | [], _ => none
  | kv :: rest, k => if kv.1 == k then some kv.2 else getField rest k

/-- Property assignment `d[k] = v`: replaces the entry for `k` in place,
or appends a new entry when `k` is absent. -/
def setField : DataRecord → String → Value → DataRecord
  | [], k, v => [(k, v)]
  | kv :: rest, k, v =>
    if kv.1 == k then (k, v) :: rest else kv :: setField rest k v

/-- The JavaScript object spread `{...old, ...updates}`: start from a copy
of `old` and assign every entry of `updates` in order, later keys winning. -/
def shallowMerge (old updates : DataRecord) : DataRecord :=
  updates.foldl (fun acc kv => setField acc kv.1 kv.2) old

/-- A registered cell plugin, as listed by `getAvailablePlugins`; only its
id is consulted by the hooks modelled here. -/
structure CellPlugin where
  id : String
deriving Repr, DecidableEq

/-- A node of the document tree (src/core/types/node.ts is not under src/;
modelled from the spec: rows contain an ordered sequence of cells, cells
optionally contain rows, each node carries an id, an optional plugin
reference and per-language data payloads). Child lists are `Option`s so
that a node with an `undefined` child array is representable, matching the
defensive `node.cells?` / `node.rows?` reads in the hooks. -/
inductive Node where
  | row (id : String) (cells : Option (List Node))
  | cell (id : String) (plugin : Option CellPlugin) (rows : Option (List Node))
      (inlinePos : Option String) (hasInlineNeighbour : Option String)
      (dataI18n : Option DataRecord)
deriving Repr

/-- Predicate `isRow` from src/core/types/node.ts (not under src/). Modelled from the
spec: a row is the container kind of node. -/
def isRow : Node → Bool
  | Node.row _ _ => true
  | Node.cell _ _ _ _ _ _ => false

/-- The id carried by a node. -/
def Node.id : Node → String
  | Node.row i _ => i
  | Node.cell i _ _ _ _ _ => i

/-- The `plugin` field of a node (`undefined` on a row). -/
def Node.plugin : Node → Option CellPlugin
  | Node.row _ _ => none
  | Node.cell _ p _ _ _ _ => p

/-- The `hasInlineNeighbour` field of a node (`undefined` on a row). -/
def Node.hasInlineNeighbour : Node → Option String
  | Node.row _ _ => none
  | Node.cell _ _ _ _ h _ => h

/-- The `inline` field of a node (`undefined` on a row). -/
def Node.inlinePos : Node → Option String
  | Node.row _ _ => none
  | Node.cell _ _ _ i _ _ => i

/-- The child list a depth-first search descends into: the cells of a row,
the rows of a cell. -/
def Node.children : Node → Option (List Node)
  | Node.row _ cells => cells
  | Node.cell _ _ rows _ _ _ => rows

mutual

/-- Depth-first search for the node with the given id, accumulating the
ancestor chain nearest-parent-first.  Helper of `findNodeInState`. -/
def findInNode (target : String) (ancestors : List Node) : Node → Option (Node × List Node)
  | Node.row i cells =>
    if i == target then some (Node.row i cells, ancestors)
    else findInChildren target (Node.row i cells :: ancestors) cells
  | Node.cell i p rows il hn d =>
    if i == target then some (Node.cell i p rows il hn d, ancestors)
    else findInChildren target (Node.cell i p rows il hn d :: ancestors) rows

/-- Search an optional child array (an `undefined` array holds nothing). -/
def findInChildren (target : String) (ancestors : List Node) : Option (List Node) → Option (Node × List Node)
  | none => none
  | some l => findInList target ancestors l

/-- Search a list of siblings left to right, first match wins. -/
def findInList (target : String) (ancestors : List Node) : List Node → Option (Node × List Node)
  | [] => none
  | n :: rest =>
    match findInNode target ancestors n with
    | some r => some r
    | none => findInList target ancestors rest

end

/-- The recorded hover: the hovered node's id and the pointer's relative
position over it. Modelled from the spec: the hover target is the node
currently under a drag pointer. The position enum's concrete constructors
are irrelevant to the hooks, so it is kept as a string payload. -/
structure Hover where
  nodeId : String
  position : String
deriving Repr, DecidableEq

/-- The slice of the global store the node hooks read: the document trees
(`state.reactPage.editables`) and the current hover
(`state.reactPage.hover`). -/
structure EditorState where
  documents : List Node
  hover : Option Hover

/-- Modelled from the spec: `findNodeInState` (src/core/selector/editable is
not under src/) finds the node with the given id in the document trees of
the store and returns it with its ancestors, nearest parent first, the last
ancestor being the root document. -/
def findNodeInState (state : EditorState) (nodeId : String) : Option (Node × List Node) :=
  findInList nodeId [] state.documents

/-- The selection function `useNodeProps(nodeId, selector)` runs against the
store state (node.ts lines 37-44): `selector(null, [])` when no node with
this id exists, `selector(node, ancestors)` otherwise. -/
def useNodeProps {T : Type} (state : EditorState) (nodeId : String)
    (selector : Option Node → List Node → T) : T :=
  match findNodeInState state nodeId with
  | none => selector none []
  | some result => selector (some result.1) result.2

/-- One step of `useSelector` with an equality function: when a previous
selection exists and compares equal to the fresh one, the previous value is
returned unchanged (memoization), otherwise the fresh selection. -/
def runSelectorMemo (sel : EditorState → Value) (prev : Option Value)
    (state : EditorState) : Value :=
  match prev with
  | none => sel state
  | some p => if deepEquals p (sel state) then p else sel state

/-- Two successive runs of the memoized `useNodeProps` hook: the first run
on `s1` from scratch, the second on `s2` with the first result cached.
Returns the pair of outputs. -/
def useNodePropsTwoRun (nodeId : String) (selector : Option Node → List Node → Value)
    (s1 s2 : EditorState) : Value × Value :=
  let v1 := runSelectorMemo (fun s => useNodeProps s nodeId selector) none s1
  (v1, runSelectorMemo (fun s => useNodeProps s nodeId selector) (some v1) s2)

/-- Hook `useCellProps(nodeId, selector)` (node.ts lines 70-80): returns null
(here `none`) at once for a falsy nodeId; otherwise runs `useNodeProps`
with the selector guarded by `node && !isRow(node)`, so the selector sees
the node only when it is an existing cell, and null otherwise. `nodeId` is
`Option String` so that a null/undefined id is representable; the falsy
strings are exactly null, undefined and the empty string. -/
def useCellProps {T : Type} (state : EditorState) (nodeId : Option String)
    (selector : Option Node → List Node → T) : Option T :=
  match nodeId with
  | none => none
  | some i =>
    if i == "" then none
    else
      some (useNodeProps state i (fun node ancestors =>
        match node with
        | some n => if isRow n then selector none ancestors else selector (some n) ancestors
        | none => selector none ancestors))

/-- Variant of `useCellProps` for a selector that can throw: the thrown error
propagates out of the hook. `Except.ok none` is the null returned for a
falsy nodeId. -/
def useCellPropsE {T : Type} (state : EditorState) (nodeId : Option String)
    (selector : Option Node → List Node → Except String T) : Except String (Option T) :=
  match nodeId with
  | none => Except.ok none
  | some i =>
    if i == "" then Except.ok none
    else
      (useNodeProps state i (fun node ancestors =>
        match node with
        | some n => if isRow n then selector none ancestors else selector (some n) ancestors
        | none => selector none ancestors)).map some

/-- The selector of `useCellHasPlugin` (node.ts line 224):
`(c) => Boolean(c.plugin)`. Reading `.plugin` off a null cell throws. -/
def cellHasPluginSelector : Option Node → Except String Bool
  | none => Except.error "TypeError: Cannot read properties of null (reading plugin)"
  | some n => Except.ok n.plugin.isSome

/-- Hook `useCellHasPlugin(nodeId)` (node.ts lines 223-225). -/
def useCellHasPlugin (state : EditorState) (nodeId : Option String) : Except String (Option Bool) :=
  useCellPropsE state nodeId (fun c _ => cellHasPluginSelector c)

/-- Hook `useNodeHoverPosition(nodeId)` (node.ts lines 111-117): the stored hover
position when the stored hover's nodeId is the given one, null otherwise
(also when no hover is recorded, since `undefined === nodeId` is false). -/
def useNodeHoverPosition (state : EditorState) (nodeId : String) : Option String :=
  match state.hover with
  | some h => if h.nodeId == nodeId then some h.position else none
  | none => none

/-- The hover target passed to the drop logic
(src/core/service/hover/computeHover). -/
structure HoverTarget where
  id : String
  ancestorIds : List String
  hasInlineNeighbour : Option String
  inlinePos : Option String
  levels : Nat
  pluginId : Option String
deriving Repr, DecidableEq

/-- Hook `useNodeAsHoverTarget(nodeId)` (node.ts lines 149-163). `getDropLevels`
(src/core/utils/getDropLevels is not under src/ and unconstrained by the
spec) is taken as a parameter. -/
def useNodeAsHoverTarget (state : EditorState) (nodeId : String)
    (getDropLevels : Node → List Node → Nat) : Option HoverTarget :=
  useNodeProps state nodeId (fun node ancestors =>
    match node with
    | some n =>
      some {
        id := n.id,
        ancestorIds := (ancestors.dropLast).map Node.id,
        hasInlineNeighbour := if isRow n then none else n.hasInlineNeighbour,
        inlinePos := if isRow n then none else n.inlinePos,
        levels := getDropLevels n ancestors,
        pluginId := if isRow n then none else n.plugin.map CellPlugin.id }
    | none => none)

/-- The selector of `useNodeChildrenIds` (node.ts lines 199-203):
`isRow(node) ? node.cells?.map(c => c.id) ?? [] : node.rows?.map(r => r.id) ?? []`.
For a null node `isRow` is false and the read `node.rows` throws. -/
def childrenIdsSelector : Option Node → Except String (List String)
  | none => Except.error "TypeError: Cannot read properties of null (reading rows)"
  | some (Node.row _ cells) =>
    Except.ok ((cells.map (fun l => l.map Node.id)).getD [])
  | some (Node.cell _ _ rows _ _ _) =>
    Except.ok ((rows.map (fun l => l.map Node.id)).getD [])

/-- Hook `useNodeChildrenIds(nodeId)` (node.ts lines 198-204). -/
def useNodeChildrenIds (state : EditorState) (nodeId : String) : Except String (List String) :=
  useNodeProps state nodeId (fun node _ => childrenIdsSelector node)

/-- The `plugin` field of a dragged cell: in the CellDrag payload it is
either a plain plugin id string or a plugin object with an id. -/
inductive DragPluginRef where
  | str (s : String)
  | obj (id : String)
deriving Repr, DecidableEq

/-- The cell of a CellDrag item; only its plugin field is consulted. -/
structure DragCell where
  plugin : Option DragPluginRef
deriving Repr, DecidableEq

/-- The drag item of type CellDrag: its cell may be absent. -/
structure CellDrag where
  cell : Option DragCell
deriving Repr, DecidableEq

/-- The predicate returned by `useCellIsAllowedHere(nodeId)` (node.ts lines
249-268), applied to a drag item; `availablePlugins` is the closed-over
result of `useAllCellPluginsForNode(nodeId)`. Mirrors the evaluation
order: after the `!item?.cell` guard, `itemPluginId` is computed first, and
`item.cell?.plugin.id` throws when the cell has no plugin; only then is
`allowed = !item.cell?.plugin || availablePlugins.some(p => p.id === itemPluginId)`
formed, where a string plugin that is empty is falsy. -/
def useCellIsAllowedHere (availablePlugins : List CellPlugin)
    (item : Option CellDrag) : Except String Bool :=
  match item with
  | none => Except.ok false
  | some it =>
    match it.cell with
    | none => Except.ok false
    | some c =>
      match c.plugin with
      | none => Except.error "TypeError: Cannot read properties of undefined (reading id)"
      | some (DragPluginRef.str s) =>
        Except.ok ((s == "") || availablePlugins.any (fun p => p.id == s))
      | some (DragPluginRef.obj pid) =>
        Except.ok (availablePlugins.any (fun p => p.id == pid))

/-- The state the `useDebouncedCellData` hook (node.ts lines 337-378) keeps
between renders: `dataRef.current` (the data it returns) and
`cellDataRef.current` (the last value propagated to or received from the
store). -/
structure DebouncedCellDataState where
  dataRef : DataRecord
  cellDataRef : DataRecord

/-- The `onChange` callback of `useDebouncedCellData` (node.ts lines
365-376): `dataRef.current = {...dataRef.current, ...partialData}`. The
debounced propagation to the store is a timing effect and changes no data
field. -/
def debouncedCellDataOnChange (st : DebouncedCellDataState)
    (pData : DataRecord) : DebouncedCellDataState :=
  { st with dataRef := shallowMerge st.dataRef pData }

/-- A uniforms JSONSchemaBridge, as consulted by `getDefaultValue`: its
subfield names and each subfield's initial value. -/
structure JSONSchemaBridge where
  subfields : List String
  initialValue : String → Value

/-- Helper `getDefaultValue(bridge)` of AutoformControls: reduce over the
subfields, `(acc, fieldName) => ({...acc, [fieldName]: bridge.getInitialValue(fieldName)})`
starting from the empty object. -/
def getDefaultValue (bridge : JSONSchemaBridge) : DataRecord :=
  bridge.subfields.foldl
    (fun acc fieldName => shallowMerge acc [(fieldName, bridge.initialValue fieldName)]) []

/-- The argument AutoformControls passes to `onChange` in its mount effect:
`{...getDefaultValue(bridge), ...(data ?? {})}`. -/
def autoformMountData (bridge : JSONSchemaBridge) (data : Option DataRecord) : DataRecord :=
  shallowMerge (getDefaultValue bridge) (data.getD [])

/-! Concrete fixtures used to instantiate the theorems below. -/

/-- A cell with a configured plugin and inline layout fields. -/
def sampleCell : Node :=
  Node.cell "c1" (some ⟨"p1"⟩) none (some "left") (some "c0") (some [("k", Value.atom "v")])

/-- A cell with no plugin and no children. -/
def samplePlainCell : Node := Node.cell "c2" none none none none none

/-- A row holding the two sample cells. -/
def sampleRow : Node := Node.row "r1" (some [sampleCell, samplePlainCell])

/-- A root document holding the sample row. -/
def sampleRoot : Node := Node.cell "root" none (some [sampleRow]) none none none

/-- A store state with the sample document and a recorded hover on c1. -/
def sampleState : EditorState := ⟨[sampleRoot], some ⟨"c1", "TOP"⟩⟩

/-- The sample document with no recorded hover: differs from `sampleState`
outside the document tree. -/
def sampleState2 : EditorState := ⟨[sampleRoot], none⟩

/-- A store state holding no documents at all. -/
def emptyState : EditorState := ⟨[], none⟩

/-- A concrete selector: the id of the selected node as a value. -/
def sampleSelector : Option Node → List Node → Value :=
  fun n _ => Value.atom ((n.map Node.id).getD "missing")

theorem getField_setField_self (d : DataRecord) (k : String) (v : Value) :
    getField (setField d k v) k = some v := by
  induction d with
  | nil => simp [setField, getField]
  | cons kv rest ih =>
    cases hb : kv.1 == k with
    | true => simp [setField, hb, getField]
    | false => simp [setField, hb, getField, ih]

theorem getField_setField_ne (d : DataRecord) (k k2 : String) (v : Value)
    (hne : k ≠ k2) : getField (setField d k v) k2 = getField d k2 := by
  induction d with
  | nil => simp [setField, getField, hne]
  | cons kv rest ih =>
    cases hb : kv.1 == k with
    | true =>
      have hk : kv.1 = k := by simpa using hb
      have : (k == k2) = false := by simp [hne]
      simp [setField, hb, getField, this, hk, hne]
    | false => simp [setField, hb, getField, ih]

theorem getField_shallowMerge_of_absent (u d : DataRecord) (k : String)
    (h : getField u k = none) : getField (shallowMerge d u) k = getField d k := by
  induction u generalizing d with
  | nil => simp [shallowMerge]
  | cons kv rest ih =>
    have hb : (kv.1 == k) = false := by
      cases hb : kv.1 == k with
      | true => simp [getField, hb] at h
      | false => rfl
    have hrest : getField rest k = none := by
      simpa [getField, hb] using h
    have hstep : shallowMerge d (kv :: rest) = shallowMerge (setField d kv.1 kv.2) rest := rfl
    rw [hstep, ih (setField d kv.1 kv.2) hrest]
    exact getField_setField_ne d kv.1 k kv.2 (by simpa using hb)

theorem getField_eq_none_of_not_mem (u : DataRecord) (k : String)
    (h : k ∉ u.map Prod.fst) : getField u k = none := by
  induction u with
  | nil => rfl
  | cons kv rest ih =>
    simp only [List.map_cons, List.mem_cons, not_or] at h
    have hb : (kv.1 == k) = false := by simp [Ne.symm h.1]
    simp [getField, hb, ih h.2]

theorem getField_shallowMerge_of_present (u d : DataRecord) (k : String) (v : Value)
    (hnd : (u.map Prod.fst).Nodup) (h : getField u k = some v) :
    getField (shallowMerge d u) k = some v := by
  induction u generalizing d with
  | nil => simp [getField] at h
  | cons kv rest ih =>
    have hstep : shallowMerge d (kv :: rest) = shallowMerge (setField d kv.1 kv.2) rest := rfl
    simp only [List.map_cons, List.nodup_cons] at hnd
    cases hb : kv.1 == k with
    | true =>
      have hkk : kv.1 = k := by simpa using hb
      have hv : v = kv.2 := by
        simp [getField, hb] at h
        exact h.symm
      have hrest : getField rest k = none := by
        apply getField_eq_none_of_not_mem
        rw [← hkk]
        exact hnd.1
      rw [hstep, getField_shallowMerge_of_absent rest _ k hrest, hkk.symm, hv,
        getField_setField_self]
    | false =>
      have hrest : getField rest k = some v := by simpa [getField, hb] using h
      rw [hstep]
      exact ih (setField d kv.1 kv.2) hnd.2 hrest

/-- C1: node selection is deep-equality memoized: whenever two store states
have deepEquals-equal selected slices, the second run of the memoized
useNodeProps hook returns the same selection result as the first, so the
output depends only on the deep-equality class of the selected slice. -/
theorem useNodeProps_deepEquals_memoized (nodeId : String)
    (selector : Option Node → List Node → Value) (s1 s2 : EditorState)
    (h : deepEquals (useNodeProps s1 nodeId selector)
      (useNodeProps s2 nodeId selector) = true) :
    (useNodePropsTwoRun nodeId selector s1 s2).2 =
      (useNodePropsTwoRun nodeId selector s1 s2).1 := by
  simp [useNodePropsTwoRun, runSelectorMemo, h]

/-- Witness for C1 at the sample fixtures: the two states differ (in the
hover) but select deepEquals-equal slices, and the two runs agree. -/
theorem useNodeProps_deepEquals_memoized_witness :
    deepEquals (useNodeProps sampleState "c1" sampleSelector)
      (useNodeProps sampleState2 "c1" sampleSelector) = true ∧
    (useNodePropsTwoRun "c1" sampleSelector sampleState sampleState2).2 =
      (useNodePropsTwoRun "c1" sampleSelector sampleState sampleState2).1 :=
  ⟨by simp [useNodeProps, findNodeInState, sampleState, sampleState2, sampleRoot,
      sampleRow, sampleCell, samplePlainCell, findInList, findInNode, findInChildren,
      sampleSelector, deepEquals],
   useNodeProps_deepEquals_memoized "c1" sampleSelector sampleState sampleState2
    (by simp [useNodeProps, findNodeInState, sampleState, sampleState2, sampleRoot,
      sampleRow, sampleCell, samplePlainCell, findInList, findInNode, findInChildren,
      sampleSelector, deepEquals])⟩

/-- C2: useNodeProps returns selector(null, []) when findNodeInState finds
no node with the given id, and selector(node, ancestors) on the found node
and its ancestor list otherwise. -/
theorem useNodeProps_dispatch {T : Type} (s : EditorState) (nodeId : String)
    (selector : Option Node → List Node → T) :
    (findNodeInState s nodeId = none →
      useNodeProps s nodeId selector = selector none []) ∧
    (∀ n ancestors, findNodeInState s nodeId = some (n, ancestors) →
      useNodeProps s nodeId selector = selector (some n) ancestors) := by
  constructor
  · intro h
    simp [useNodeProps, h]
  · intro n ancestors h
    simp [useNodeProps, h]

/-- Witness for C2 at the sample fixtures: c1 is found under the sample row
and root, and the selection is applied to it. -/
theorem useNodeProps_dispatch_witness :
    findNodeInState sampleState "c1" = some (sampleCell, [sampleRow, sampleRoot]) ∧
    useNodeProps sampleState "c1" sampleSelector =
      sampleSelector (some sampleCell) [sampleRow, sampleRoot] := by
  have hfind : findNodeInState sampleState "c1" = some (sampleCell, [sampleRow, sampleRoot]) := by
    simp [findNodeInState, sampleState, sampleRoot, sampleRow, sampleCell,
      samplePlainCell, findInList, findInNode, findInChildren]
  exact ⟨hfind,
    (useNodeProps_dispatch sampleState "c1" sampleSelector).2 sampleCell
      [sampleRow, sampleRoot] hfind⟩

/-- C3: the onChange callback of useDebouncedCellData updates partially:
the resulting data is the previous data shallow-merged with the partial
update, and every field whose key is absent from the partial update keeps
its previous value. -/
theorem debouncedCellData_onChange_merge (st : DebouncedCellDataState)
    (pData : DataRecord) :
    (debouncedCellDataOnChange st pData).dataRef = shallowMerge st.dataRef pData ∧
    ∀ k, getField pData k = none →
      getField (debouncedCellDataOnChange st pData).dataRef k = getField st.dataRef k := by
  refine ⟨rfl, fun k hk => ?_⟩
  exact getField_shallowMerge_of_absent pData st.dataRef k hk

/-- Witness for C3: updating {a: 1, b: 2} with {a: 9} leaves field b at its
previous value. -/
theorem debouncedCellData_onChange_merge_witness :
    getField [("a", Value.atom "9")] "b" = none ∧
    getField (debouncedCellDataOnChange ⟨[("a", Value.atom "1"), ("b", Value.atom "2")], []⟩
        [("a", Value.atom "9")]).dataRef "b" =
      getField [("a", Value.atom "1"), ("b", Value.atom "2")] "b" :=
  ⟨by simp [getField],
   (debouncedCellData_onChange_merge ⟨[("a", Value.atom "1"), ("b", Value.atom "2")], []⟩
      [("a", Value.atom "9")]).2 "b" (by simp [getField])⟩

/-- C7: useNodeHoverPosition returns the stored hover position exactly when
the stored hover's node id equals the given nodeId, and null in every other
case, including when no hover is recorded. -/
theorem useNodeHoverPosition_spec (s : EditorState) (nodeId : String) :
    (∀ h, s.hover = some h → h.nodeId = nodeId →
      useNodeHoverPosition s nodeId = some h.position) ∧
    (∀ h, s.hover = some h → h.nodeId ≠ nodeId →
      useNodeHoverPosition s nodeId = none) ∧
    (s.hover = none → useNodeHoverPosition s nodeId = none) := by
  refine ⟨fun h hh heq => ?_, fun h hh hne => ?_, fun hh => ?_⟩
  · simp [useNodeHoverPosition, hh, heq]
  · simp [useNodeHoverPosition, hh, hne]
  · simp [useNodeHoverPosition, hh]

/-- Witness for C7: the sample state hovers c1 at position TOP, so the hook
reports TOP for c1 and null for c2. -/
theorem useNodeHoverPosition_spec_witness :
    sampleState.hover = some ⟨"c1", "TOP"⟩ ∧
    useNodeHoverPosition sampleState "c1" = some "TOP" ∧
    useNodeHoverPosition sampleState "c2" = none :=
  ⟨rfl,
   (useNodeHoverPosition_spec sampleState "c1").1 ⟨"c1", "TOP"⟩ rfl rfl,
   (useNodeHoverPosition_spec sampleState "c2").2.1 ⟨"c1", "TOP"⟩ rfl (by simp)⟩

/-- C9: for a falsy nodeId (null/undefined or the empty string) useCellProps
returns null for every state and every selector, so neither the store nor
the selector can influence the result. -/
theorem useCellProps_falsy_nodeId {T : Type} (s : EditorState) (nodeId : Option String)
    (selector : Option Node → List Node → T)
    (h : nodeId = none ∨ nodeId = some "") :
    useCellProps s nodeId selector = none := by
  rcases h with h | h <;> simp [useCellProps, h]

/-- Witness for C9: the empty-string nodeId yields null on the sample state
even though the state is nonempty. -/
theorem useCellProps_falsy_nodeId_witness :
    ((some "" : Option String) = none ∨ (some "" : Option String) = some "") ∧
    useCellProps sampleState (some "") sampleSelector = none :=
  ⟨Or.inr rfl,
   useCellProps_falsy_nodeId sampleState (some "") sampleSelector (Or.inr rfl)⟩

/-- C10: the data AutoformControls passes to onChange in its mount effect is
the schema's per-field initial values shallow-merged under the existing
data: fields present in the data keep their value, fields absent from it
receive the schema default. -/
theorem autoformControls_mount_merge (bridge : JSONSchemaBridge) (data : DataRecord)
    (hnd : (data.map Prod.fst).Nodup) :
    autoformMountData bridge (some data) = shallowMerge (getDefaultValue bridge) data ∧
    (∀ k v, getField data k = some v →
      getField (autoformMountData bridge (some data)) k = some v) ∧
    (∀ k, getField data k = none →
      getField (autoformMountData bridge (some data)) k =
        getField (getDefaultValue bridge) k) := by
  refine ⟨rfl, fun k v hk => ?_, fun k hk => ?_⟩
  · exact getField_shallowMerge_of_present data (getDefaultValue bridge) k v hnd hk
  · exact getField_shallowMerge_of_absent data (getDefaultValue bridge) k hk

/-- Witness for C10: with defaults {a: d1, b: d2} and data {a: x}, the
merged record keeps x at a and takes the default at b. -/
theorem autoformControls_mount_merge_witness :
    (([("a", Value.atom "x")] : DataRecord).map Prod.fst).Nodup ∧
    getField (autoformMountData ⟨["a", "b"], fun f => Value.atom (f ++ "default")⟩
      (some [("a", Value.atom "x")])) "a" = some (Value.atom "x") := by
  refine ⟨by simp, ?_⟩
  exact (autoformControls_mount_merge ⟨["a", "b"], fun f => Value.atom (f ++ "default")⟩
    [("a", Value.atom "x")] (by simp)).2.1 "a" (Value.atom "x") (by simp [getField])

/-- C4 (against the code's evident intent): the drop predicate of
useCellIsAllowedHere rejects a drag item without a cell and checks the
dragged plugin's id against the available plugins, but for a dragged cell
with no plugin it does not return true as its own `!item.cell?.plugin ||`
clause intends: the earlier read `item.cell?.plugin.id` throws a TypeError
first. -/
theorem useCellIsAllowedHere_spec :
    (∀ plugins : List CellPlugin, useCellIsAllowedHere plugins none = Except.ok false) ∧
    (∀ plugins : List CellPlugin,
      useCellIsAllowedHere plugins (some ⟨none⟩) = Except.ok false) ∧
    (∀ (plugins : List CellPlugin) (pid : String),
      useCellIsAllowedHere plugins (some ⟨some ⟨some (DragPluginRef.obj pid)⟩⟩) =
        Except.ok (plugins.any (fun p => p.id == pid))) ∧
    (∀ plugins : List CellPlugin,
      useCellIsAllowedHere plugins (some ⟨some ⟨none⟩⟩) =
        Except.error "TypeError: Cannot read properties of undefined (reading id)") :=
  ⟨fun _ => rfl, fun _ => rfl, fun _ _ => rfl, fun _ => rfl⟩

/-- C5: for an existing node, useNodeAsHoverTarget builds a HoverTarget
carrying the node's id and the ancestor ids with the last ancestor (the
root document) excluded, with null hasInlineNeighbour, inline and pluginId
fields on a row; for a missing node it returns null. -/
theorem useNodeAsHoverTarget_spec (s : EditorState) (nodeId : String)
    (gdl : Node → List Node → Nat) :
    (∀ n ancestors, findNodeInState s nodeId = some (n, ancestors) →
      ∃ t, useNodeAsHoverTarget s nodeId gdl = some t ∧
        t.id = n.id ∧
        t.ancestorIds = ancestors.dropLast.map Node.id ∧
        (isRow n = true →
          t.hasInlineNeighbour = none ∧ t.inlinePos = none ∧ t.pluginId = none)) ∧
    (findNodeInState s nodeId = none → useNodeAsHoverTarget s nodeId gdl = none) := by
  constructor
  · intro n ancestors h
    have he : useNodeAsHoverTarget s nodeId gdl = some {
        id := n.id,
        ancestorIds := ancestors.dropLast.map Node.id,
        hasInlineNeighbour := if isRow n then none else n.hasInlineNeighbour,
        inlinePos := if isRow n then none else n.inlinePos,
        levels := gdl n ancestors,
        pluginId := if isRow n then none else n.plugin.map CellPlugin.id } := by
      simp [useNodeAsHoverTarget, useNodeProps, h]
    exact ⟨_, he, rfl, rfl, fun hrow => by simp [hrow]⟩
  · intro h
    simp [useNodeAsHoverTarget, useNodeProps, h]

/-- Witness for C5 at the sample fixtures: the hover target for c1 carries
id c1 and only the row r1 as ancestor id, the root being excluded. -/
theorem useNodeAsHoverTarget_spec_witness :
    findNodeInState sampleState "c1" = some (sampleCell, [sampleRow, sampleRoot]) ∧
    ∃ t, useNodeAsHoverTarget sampleState "c1" (fun _ _ => 0) = some t ∧
      t.id = "c1" ∧ t.ancestorIds = ["r1"] := by
  have hfind : findNodeInState sampleState "c1" = some (sampleCell, [sampleRow, sampleRoot]) := by
    simp [findNodeInState, sampleState, sampleRoot, sampleRow, sampleCell,
      samplePlainCell, findInList, findInNode, findInChildren]
  refine ⟨hfind, ?_⟩
  obtain ⟨t, ht, hid, hanc, _⟩ :=
    (useNodeAsHoverTarget_spec sampleState "c1" (fun _ _ => 0)).1 sampleCell
      [sampleRow, sampleRoot] hfind
  refine ⟨t, ht, ?_, ?_⟩
  · simpa [sampleCell, Node.id] using hid
  · simpa [sampleRow, sampleRoot, Node.id] using hanc

/-- C6 counterexample: on a state with no documents, useNodeChildrenIds does
not return the empty list for a missing node; the selector reads
`node.rows` off null and throws. -/
theorem useNodeChildrenIds_missing_throws :
    useNodeChildrenIds emptyState "x" ≠ Except.ok [] ∧
    useNodeChildrenIds emptyState "x" =
      Except.error "TypeError: Cannot read properties of null (reading rows)" := by
  constructor <;>
    simp [useNodeChildrenIds, useNodeProps, findNodeInState, emptyState,
      findInList, childrenIdsSelector]

/-- C6 as amended: for an existing row node the ids of its cells in stored
order, for an existing cell node the ids of its rows in stored order (an
absent child array yields the empty list), but for a missing node the hook
throws a TypeError instead of returning the empty list. -/
theorem useNodeChildrenIds_spec (s : EditorState) (nodeId : String) :
    (∀ i cells ancestors, findNodeInState s nodeId = some (Node.row i cells, ancestors) →
      useNodeChildrenIds s nodeId = Except.ok ((cells.getD []).map Node.id)) ∧
    (∀ i p rows il hn d ancestors,
      findNodeInState s nodeId = some (Node.cell i p rows il hn d, ancestors) →
      useNodeChildrenIds s nodeId = Except.ok ((rows.getD []).map Node.id)) ∧
    (findNodeInState s nodeId = none →
      useNodeChildrenIds s nodeId =
        Except.error "TypeError: Cannot read properties of null (reading rows)") := by
  refine ⟨fun i cells anc h => ?_, fun i p rows il hn d anc h => ?_, fun h => ?_⟩
  · cases cells <;> simp [useNodeChildrenIds, useNodeProps, h, childrenIdsSelector]
  · cases rows <;> simp [useNodeChildrenIds, useNodeProps, h, childrenIdsSelector]
  · simp [useNodeChildrenIds, useNodeProps, h, childrenIdsSelector]

/-- Witness for C6 as amended: the sample row reports its two cells' ids in
stored order. -/
theorem useNodeChildrenIds_spec_witness :
    findNodeInState sampleState "r1" = some (sampleRow, [sampleRoot]) ∧
    useNodeChildrenIds sampleState "r1" = Except.ok ["c1", "c2"] := by
  have hfind : findNodeInState sampleState "r1" =
      some (Node.row "r1" (some [sampleCell, samplePlainCell]), [sampleRoot]) := by
    simp [findNodeInState, sampleState, sampleRoot, sampleRow, sampleCell,
      samplePlainCell, findInList, findInNode, findInChildren]
  refine ⟨by simpa [sampleRow] using hfind, ?_⟩
  have := (useNodeChildrenIds_spec sampleState "r1").1 "r1"
    (some [sampleCell, samplePlainCell]) [sampleRoot] hfind
  simpa [sampleCell, samplePlainCell, Node.id] using this

/-- C8 counterexample: on a state with no documents, useCellHasPlugin does
not return false for a missing node; the selector reads `.plugin` off the
null cell useCellProps passes it and throws. -/
theorem useCellHasPlugin_missing_throws :
    useCellHasPlugin emptyState (some "x") ≠ Except.ok (some false) ∧
    useCellHasPlugin emptyState (some "x") =
      Except.error "TypeError: Cannot read properties of null (reading plugin)" := by
  constructor <;>
    simp [useCellHasPlugin, useCellPropsE, useNodeProps, findNodeInState, emptyState,
      findInList, cellHasPluginSelector, Except.map]

/-- C8 as amended: useCellHasPlugin returns true exactly for an existing
cell with a configured plugin and false for an existing cell without one;
it returns null for a falsy nodeId; but for a missing node or a row the
selector dereferences null and throws a TypeError instead of returning
false. -/
theorem useCellHasPlugin_spec (s : EditorState) (nodeId : Option String) :
    (nodeId = none ∨ nodeId = some "" → useCellHasPlugin s nodeId = Except.ok none) ∧
    (∀ i n ancestors, nodeId = some i → i ≠ "" →
      findNodeInState s i = some (n, ancestors) → isRow n = false →
      useCellHasPlugin s nodeId = Except.ok (some n.plugin.isSome)) ∧
    (∀ i n ancestors, nodeId = some i → i ≠ "" →
      findNodeInState s i = some (n, ancestors) → isRow n = true →
      useCellHasPlugin s nodeId =
        Except.error "TypeError: Cannot read properties of null (reading plugin)") ∧
    (∀ i, nodeId = some i → i ≠ "" → findNodeInState s i = none →
      useCellHasPlugin s nodeId =
        Except.error "TypeError: Cannot read properties of null (reading plugin)") := by
  refine ⟨fun h => ?_, fun i n anc hi hne hfind hrow => ?_,
    fun i n anc hi hne hfind hrow => ?_, fun i hi hne hfind => ?_⟩
  · rcases h with h | h <;> simp [useCellHasPlugin, useCellPropsE, h]
  · subst hi
    simp [useCellHasPlugin, useCellPropsE, hne, useNodeProps, hfind, hrow,
      cellHasPluginSelector, Except.map]
  · subst hi
    simp [useCellHasPlugin, useCellPropsE, hne, useNodeProps, hfind, hrow,
      cellHasPluginSelector, Except.map]
  · subst hi
    simp [useCellHasPlugin, useCellPropsE, hne, useNodeProps, hfind,
      cellHasPluginSelector, Except.map]

/-- Witness for C8 as amended: c1 is a cell with a configured plugin, and
the hook reports true for it. -/
theorem useCellHasPlugin_spec_witness :
    findNodeInState sampleState "c1" = some (sampleCell, [sampleRow, sampleRoot]) ∧
    useCellHasPlugin sampleState (some "c1") = Except.ok (some true) := by
  have hfind : findNodeInState sampleState "c1" = some (sampleCell, [sampleRow, sampleRoot]) := by
    simp [findNodeInState, sampleState, sampleRoot, sampleRow, sampleCell,
      samplePlainCell, findInList, findInNode, findInChildren]
  refine ⟨hfind, ?_⟩
  have := (useCellHasPlugin_spec sampleState (some "c1")).2.1 "c1" sampleCell
    [sampleRow, sampleRoot] rfl (by simp) hfind (by simp [sampleCell, isRow])
  simpa [sampleCell, Node.plugin] using this

end ReactPage
